import Mathlib

/-!
Verification development for the intelligent-node-detection repository.

The repository couples a React frontend (GraphView.jsx, Upload.jsx,
services/api.js, App.jsx) with a Python detection backend. The frontend
sources are embedded here definition by definition. The backend pipeline
(shape merger, graph builder, narrative generator) is not part of the
source tree available under src, so those components are modelled from
the specification text; each such definition carries a doc comment
starting with the words Modelled from the spec.
-/

namespace S2P

/-! ### Frontend: services/api.js -/

/-- Outcome of a browser fetch call: either a response object was
received, or the promise rejected with a network error message. -/
inductive FetchOutcome (β : Type) where
  | got (r : β)
  | netFail (msg : String)
deriving DecidableEq

/-- Body of the analyze endpoint, as parsed from JSON by the caller
(fields success, message, data, as read by Upload.handleUpload).
The payload type is abstract. -/
structure AnalyzeResult (δ : Type) where
  success : Bool
  message : Option String
  data : δ
deriving DecidableEq

/-- HTTP response for the analyze endpoint: ok flag, statusText, and the
result of response.json, which is none when the body is not valid JSON. -/
structure AnalyzeResponse (δ : Type) where
  ok : Bool
  statusText : String
  body : Option (AnalyzeResult δ)
deriving DecidableEq

/-- Message a rejected response.json promise carries; it mirrors the
JSON SyntaxError produced by the browser. -/
def jsonParseErrorMsg : String := "SyntaxError: unexpected end of JSON input"

/-- Embedding of api.analyzeDiagram from services/api.js: a rejected
fetch propagates, a non-ok response throws an Error whose message is
built from the string Analysis failed plus the statusText, and an ok
response returns the parsed JSON body (whose parse failure propagates). -/
def analyzeDiagram {δ : Type} : FetchOutcome (AnalyzeResponse δ) → Except String (AnalyzeResult δ)
  | .netFail m => .error m
  | .got r =>
    if r.ok = false then
      .error ("Analysis failed: " ++ r.statusText)
    else
      match r.body with
      | some j => .ok j
      | none => .error jsonParseErrorMsg

/-- HTTP response for the health endpoint: only the ok flag is read. -/
structure HealthResponse where
  ok : Bool
deriving DecidableEq

/-- Embedding of api.healthCheck from services/api.js: returns
response.ok when the fetch resolves and false when it throws. -/
def healthCheck : FetchOutcome HealthResponse → Bool
  | .got r => r.ok
  | .netFail _ => false

/-! ### Frontend: Upload.handleUpload (components, GraphView.jsx bundle) -/

/-- Local state of the Upload component that handleUpload writes. -/
structure UploadState where
  loading : Bool
  error : String
deriving DecidableEq

/-- JS truthy-or-default on an optional message string, as in the
expressions result.message or err.message followed by a fallback. -/
def msgOrDefault (m : Option String) (d : String) : String :=
  match m with
  | some s => if s = "" then d else s
  | none => d

/-- Embedding of Upload.handleUpload: given the selected file, the
outcome of api.analyzeDiagram, and the current local state, it returns
the new local state together with the payload passed to onUploadSuccess
(none when the callback is not invoked). The early return on a missing
file leaves loading untouched; every other path runs the try block whose
finally clause resets loading to false. -/
def handleUpload {δ : Type} (file : Option String)
    (call : Except String (AnalyzeResult δ)) (st : UploadState) :
    UploadState × Option δ :=
  match file with
  | none => ({ st with error := "Please select a file" }, none)
  | some _ =>
    match call with
    | .ok res =>
      if res.success then
        ({ loading := false, error := "" }, some res.data)
      else
        ({ loading := false, error := msgOrDefault res.message "Upload failed" }, none)
    | .error e =>
      ({ loading := false, error := msgOrDefault (some e) "An error occurred during analysis" }, none)

/-! ### Frontend: GraphView.jsx rendering of the steps view and metadata -/

/-- One rendered narrative item: its extra CSS class, its step marker,
and its content text, as produced in the narrative-list map. -/
structure RStep where
  cls : String
  marker : String
  content : String
deriving DecidableEq

/-- The JS expression s.includes(c), read off the character list. -/
def jsIncludes (s : String) (c : Char) : Bool := s.data.contains c

/-- The JS expression s.startsWith(p), read off the character lists. -/
def jsStarts (s p : String) : Bool := p.data.isPrefixOf s.data

/-- Split a character list at every occurrence of the separator, as the
JS expression s.split(c) does for a one-character separator. -/
def splitCh (c : Char) : List Char → List (List Char)
  | [] => [[]]
  | x :: xs =>
    match splitCh c xs with
    | h :: t => if x = c then [] :: h :: t else (x :: h) :: t
    | [] => [[x]]

/-- The JS expression s.split(c) for a one-character separator. -/
def jsSplit (s : String) (c : Char) : List String :=
  (splitCh c s.data).map String.mk

/-- The JS expression s.trim(): whitespace stripped from both ends. -/
def jsTrim (s : String) : String :=
  ⟨(((s.data.dropWhile Char.isWhitespace).reverse.dropWhile Char.isWhitespace).reverse)⟩

/-- Embedding of the per-step rendering in GraphView: the class
indent-branch is added exactly when the step contains the branch marker
character, the marker span shows the text before the first colon when
the step starts with Step and a bullet otherwise, and the content is the
trimmed remainder after the first colon when one exists. -/
def renderStep (step : String) : RStep :=
  { cls := if jsIncludes step '↳' then "indent-branch" else ""
  , marker := if jsStarts step "Step" then (jsSplit step ':').headD "" else "•"
  , content :=
      if jsIncludes step ':' then
        jsTrim (String.intercalate ":" (jsSplit step ':').tail)
      else
        step }

/-- Result of rendering the steps view: either the no-logic message or
the list of rendered narrative items. -/
inductive StepsView where
  | message (s : String)
  | items (l : List RStep)
deriving DecidableEq

/-- Message shown by GraphView when the narrative is empty. -/
def noLogicMsg : String := "No logic could be interpreted from this graph."

/-- Embedding of the steps view of GraphView: the no-logic message is
rendered exactly when the narrative has length zero, otherwise every
step is rendered in order. -/
def renderSteps (narrative : List String) : StepsView :=
  if narrative.length = 0 then .message noLogicMsg
  else .items (narrative.map renderStep)

/-- Metadata object read by GraphView from graph.metadata; the
sanity_violations field may be absent. -/
structure MetaData where
  node_count : Nat
  edge_count : Nat
  graph_type : String
  sanity_violations : Option (List String)
deriving DecidableEq

/-- Embedding of the sanity-check-area of GraphView: the warnings
section is rendered, listing each violation string in order, exactly
when sanity_violations is present and nonempty. -/
def renderSanity (m : MetaData) : Option (List String) :=
  match m.sanity_violations with
  | some vs => if vs.length > 0 then some vs else none
  | none => none

/-- Embedding of the independent parts of the GraphView output that the
error-handling claims relate: the steps view and the sanity section are
computed side by side, so warnings never displace the partial results. -/
def renderView (narrative : List String) (m : MetaData) :
    StepsView × Option (List String) :=
  (renderSteps narrative, renderSanity m)

/-! ### Backend, stage 1: Shape Detector and Merger (spec section 4.1) -/

/-- Modelled from the spec: axis-aligned bounding box of a shape, the
geometry the merger reads (the backend cv module is not under src). -/
structure Box where
  x1 : Int
  y1 : Int
  x2 : Int
  y2 : Int
deriving DecidableEq

/-- Area of a bounding box. -/
def Box.area (b : Box) : Int := (b.x2 - b.x1) * (b.y2 - b.y1)

/-- Squared diagonal length of a bounding box. -/
def Box.diagSq (b : Box) : Int := (b.x2 - b.x1) ^ 2 + (b.y2 - b.y1) ^ 2

/-- Union bounding region of two boxes. -/
def Box.union (a b : Box) : Box :=
  ⟨min a.x1 b.x1, min a.y1 b.y1, max a.x2 b.x2, max a.y2 b.y2⟩

/-- Length of the overlap of two closed intervals, zero when disjoint. -/
def interLen (a1 a2 b1 b2 : Int) : Int := max 0 (min a2 b2 - max a1 b1)

/-- Area of the intersection of two boxes. -/
def Box.interArea (a b : Box) : Int :=
  interLen a.x1 a.x2 b.x1 b.x2 * interLen a.y1 a.y2 b.y1 b.y2

/-- Four times the squared distance between the centers of two boxes
(kept integral by working with doubled center coordinates). -/
def Box.cdistSqX4 (a b : Box) : Int :=
  ((a.x1 + a.x2) - (b.x1 + b.x2)) ^ 2 + ((a.y1 + a.y2) - (b.y1 + b.y2)) ^ 2

/-- Modelled from the spec: shape category assigned by the detector. -/
inductive ShapeType where
  | circle
  | rectangle
  | diamond
  | polygon
  | unknown
deriving DecidableEq

/-- Modelled from the spec: a RawShape from the external vision pass,
restricted to the fields the merger reads (bounding box, area, shape
type, and detector confidence; the confidence in [0,1] is embedded in
per-mille, so 0.4 is written 400). -/
structure RawShape where
  box : Box
  area : Int
  conf : Int
  ty : ShapeType
deriving DecidableEq

/-- Modelled from the spec: the configuration object threaded through
the detector: confidence guard threshold (per-mille), noise area
threshold, bounding box overlap fraction fracNum over fracDen, and
center distance factor dNum over dDen of the smaller diagonal. -/
structure MergeConfig where
  guard : Int
  noise : Int
  fracNum : Int
  fracDen : Int
  dNum : Int
  dDen : Int
deriving DecidableEq

/-- Default thresholds named by the spec: confidence guard 0.4, noise
flush 500 square pixels, overlap fraction one fifth, and centers within
half of the smaller diagonal. -/
def defaultConfig : MergeConfig := ⟨400, 500, 1, 5, 1, 2⟩

/-- Modelled from the spec: two shapes are merge candidates when their
bounding boxes overlap beyond the configured fraction of the smaller
box, or their centers lie within the configured multiple of the smaller
shape diagonal; both comparisons are cleared of denominators and the
distance one is squared, so the arithmetic stays integral. -/
def mergeable (cfg : MergeConfig) (a b : Box) : Bool :=
  let inter := a.interArea b
  let small := min a.area b.area
  let dsq := if a.area ≤ b.area then a.diagSq else b.diagSq
  (decide (0 < inter) && decide (cfg.fracNum * small ≤ cfg.fracDen * inter)) ||
    decide (cfg.dDen ^ 2 * a.cdistSqX4 b ≤ 4 * cfg.dNum ^ 2 * dsq)

/-- Merge candidacy between two indices into the kept shape list. -/
def idxMergeable (cfg : MergeConfig) (l : List RawShape) (i j : Nat) : Bool :=
  match l.get? i, l.get? j with
  | some a, some b => mergeable cfg a.box b.box
  | _, _ => false

/-- A pair of index groups is connected when some cross pair of member
shapes is mergeable. -/
def grpMergeable (cfg : MergeConfig) (l : List RawShape) (g1 g2 : List Nat) : Bool :=
  g1.any (fun i => g2.any (fun j => idxMergeable cfg l i j))

/-- Remove from the list the first group connected to g, returning it
together with the remaining groups. -/
def pullMergeable (cfg : MergeConfig) (l : List RawShape) (g : List Nat) :
    List (List Nat) → Option (List Nat × List (List Nat))
  | [] => none
  | h :: t =>
    if grpMergeable cfg l g h then some (h, t)
    else
      match pullMergeable cfg l g t with
      | some (h2, t2) => some (h2, h :: t2)
      | none => none

/-- One union-find coalescing step: join the first connected pair of
groups, keeping the position of the earlier group. -/
def coalesceStep (cfg : MergeConfig) (l : List RawShape) :
    List (List Nat) → Option (List (List Nat))
  | [] => none
  | g :: gs =>
    match pullMergeable cfg l g gs with
    | some (g2, rest) => some ((g ++ g2) :: rest)
    | none =>
      match coalesceStep cfg l gs with
      | some gs2 => some (g :: gs2)
      | none => none

/-- Iterate coalescing steps to a fixpoint; the fuel bounds the number
of joins, and each join removes one group, so list length fuel is ample. -/
def coalesce (cfg : MergeConfig) (l : List RawShape) : Nat → List (List Nat) → List (List Nat)
  | 0, gs => gs
  | f + 1, gs =>
    match coalesceStep cfg l gs with
    | some gs2 => coalesce cfg l f gs2
    | none => gs

/-- Initial partition: one singleton group per shape index, in detection
order. -/
def initGroups (n : Nat) : List (List Nat) := (List.range n).map (fun i => [i])

/-- Modelled from the spec: a LogicalNode as produced by the merger, with
the union bounding region, the maximum contributing confidence, the type
of the highest-confidence contributor, and that contributor area kept
for tie-breaking. -/
structure LNode where
  box : Box
  conf : Int
  ty : ShapeType
  bestArea : Int
deriving DecidableEq

/-- Fold one more raw shape into a logical node: union geometry, maximum
confidence, and best-evidence type with ties broken by larger area. -/
def absorb (m : LNode) (s : RawShape) : LNode :=
  { box := m.box.union s.box
  , conf := max m.conf s.conf
  , ty := if m.conf < s.conf ∨ (m.conf = s.conf ∧ m.bestArea < s.area) then s.ty else m.ty
  , bestArea := if m.conf < s.conf ∨ (m.conf = s.conf ∧ m.bestArea < s.area) then s.area else m.bestArea }

/-- Collapse one index group into a logical node; an empty or dangling
group yields none. -/
def collapse (l : List RawShape) (g : List Nat) : Option LNode :=
  match g.filterMap (fun i => l.get? i) with
  | [] => none
  | s :: rest => some (rest.foldl absorb ⟨s.box, s.conf, s.ty, s.area⟩)

/-- Modelled from the spec: the full Shape Detector and Merger pipeline:
confidence guard, proximal merging by union-find over the mergeable
relation, then noise flush on the merged areas. -/
def detect (cfg : MergeConfig) (shapes : List RawShape) : List LNode :=
  let kept := shapes.filter (fun s => decide (cfg.guard ≤ s.conf))
  let groups := coalesce cfg kept kept.length (initGroups kept.length)
  let merged := groups.filterMap (collapse kept)
  merged.filter (fun n => decide (cfg.noise ≤ n.box.area))

/-- View a logical node as a raw shape again, as when feeding the merge
step its own output: the node area is the area of its bounding region. -/
def toShape (n : LNode) : RawShape := ⟨n.box, n.box.area, n.conf, n.ty⟩

/-! ### Backend, stage 4: Graph Builder metric (spec section 4.4) -/

/-- Modelled from the spec: the Graph Builder metric node_reduction_pct,
the fraction of raw shapes eliminated by merge and filter, as a
percentage clamped to the interval from 0 to 100, and 0 when the raw
shape count is 0 (the backend graph module is not under src). -/
def node_reduction_pct (raw fin : Nat) : ℚ :=
  if raw = 0 then 0
  else max 0 (min 100 (((raw : ℚ) - (fin : ℚ)) / (raw : ℚ) * 100))

/-! ### Backend, stage 5: Narrative Generator (spec section 4.5) -/

/-- Modelled from the spec: semantic class of a classified node; the
spec class named end is rendered here as the constructor stop, since end
is a reserved word. -/
inductive SemClass where
  | start
  | stop
  | process
  | decision
  | data
  | unknown
deriving DecidableEq

/-- Modelled from the spec: a classified LogicalNode as the Narrative
Generator reads it: stable id, semantic class, and its caption text. -/
structure GNode where
  id : Nat
  cls : SemClass
  text : String
deriving DecidableEq

/-- Modelled from the spec: a directed edge with an optional label. -/
structure GEdge where
  src : Nat
  tgt : Nat
  lbl : Option String
deriving DecidableEq

/-- Modelled from the spec: the assembled directed graph handed to the
Narrative Generator. -/
structure Graph where
  nodes : List GNode
  edges : List GEdge

/-- Lower-case an ASCII letter, leaving every other character alone. -/
def lowerChar (c : Char) : Char :=
  if c.isUpper then Char.ofNat (c.toNat + 32) else c

/-- Lower-case normalization of a label, character by character. -/
def lowerStr (s : String) : String := ⟨s.data.map lowerChar⟩

/-- Modelled from the spec: polarity priority of an edge label: Yes and
True come first, then No and False, then unlabeled or other text. -/
def polKey (l : Option String) : Nat :=
  match l with
  | none => 2
  | some s =>
    let t := lowerStr s
    if t = "yes" ∨ t = "true" then 0
    else if t = "no" ∨ t = "false" then 1
    else 2

/-- Enumeration order on outgoing edges of a decision node: lower
polarity key first. -/
def polLE (a b : GEdge) : Prop := polKey a.lbl ≤ polKey b.lbl

instance : DecidableRel polLE := fun a b => Nat.decLe (polKey a.lbl) (polKey b.lbl)

instance : IsTotal GEdge polLE := ⟨fun a b => Nat.le_total (polKey a.lbl) (polKey b.lbl)⟩

instance : IsTrans GEdge polLE := ⟨fun _ _ _ => Nat.le_trans⟩

/-- Fixed enumeration of the outgoing edges of a decision node: a stable
sort by polarity priority. -/
def sortBranches (es : List GEdge) : List GEdge := List.insertionSort polLE es

/-- Display name of a semantic class. -/
def clsName : SemClass → String
  | .start => "Start"
  | .stop => "End"
  | .process => "Process"
  | .decision => "Decision"
  | .data => "Data"
  | .unknown => "Unknown"

/-- Modelled from the spec: the class-driven phrase of one step,
referencing the node labels when present. -/
def phraseOf (nd : GNode) : String :=
  if nd.text = "" then clsName nd.cls else nd.text

/-- One linear narrative step: the word Step, the running number, a
colon, and the phrase. -/
def stepLine (k : Nat) (nd : GNode) : String :=
  "Step " ++ toString k ++ ": " ++ phraseOf nd

/-- One indented branch continuation line for an outgoing edge of a
decision node, prefixed by the branch marker. -/
def branchLine (e : GEdge) : String :=
  "↳ " ++ (match e.lbl with | some s => s | none => "next") ++
    ": continue to node " ++ toString e.tgt

/-- Find a node of the graph by id. -/
def lookupNode (g : Graph) (i : Nat) : Option GNode :=
  g.nodes.find? (fun nd => decide (nd.id = i))

/-- Outgoing edges of the node with the given id, in edge list order. -/
def outEdges (g : Graph) (i : Nat) : List GEdge :=
  g.edges.filter (fun e => decide (e.src = i))

/-- Modelled from the spec: the breadth-first narrative walk with an
explicit work queue and visited list. A dequeued unvisited node emits
one linear step, a decision node additionally emits one indented branch
line per outgoing edge in polarity order, successors are enqueued in
that same order, and the step number increments per emitted step only.
The fuel argument only bounds the loop; it is chosen large enough that
it never runs out on the inputs of interest. -/
def walk (g : Graph) : Nat → List Nat → List Nat → Nat → List String
  | 0, _, _, _ => []
  | _ + 1, [], _, _ => []
  | f + 1, i :: q, vis, k =>
    if vis.contains i then walk g f q vis k
    else
      match lookupNode g i with
      | none => walk g f q (i :: vis) k
      | some nd =>
        let outs := sortBranches (outEdges g i)
        let branches := if nd.cls = SemClass.decision then outs.map branchLine else []
        stepLine k nd :: (branches ++ walk g f (q ++ outs.map GEdge.tgt) (i :: vis) (k + 1))

/-- Fuel that the walk can never exhaust: every queue entry stems from
the start node or from an edge of an emitted node, and each node is
emitted at most once. -/
def narrFuel (g : Graph) : Nat :=
  (g.nodes.length + 1) * (g.edges.length + 1) + 1

/-- Ids of the nodes classified start, in detection order. -/
def startIds (g : Graph) : List Nat :=
  (g.nodes.filter (fun nd => decide (nd.cls = SemClass.start))).map GNode.id

/-- Modelled from the spec: the Narrative Generator: an empty narrative
when no node is classified start, else the breadth-first walk from the
first start node by node id. -/
def narrative (g : Graph) : List String :=
  match List.insertionSort (fun a b => a ≤ b) (startIds g) with
  | [] => []
  | s :: _ => walk g (narrFuel g) [s] [] 1

/-! ### Concrete fixtures used by witnesses and counterexamples -/

/-- Raw shape A of the merge fixture: a confident 100 by 100 square. -/
def shapeA : RawShape := ⟨⟨0, 0, 100, 100⟩, 10000, 900, ShapeType.rectangle⟩

/-- Raw shape B of the merge fixture: overlaps A by a quarter of its
area, so A and B are merge candidates. -/
def shapeB : RawShape := ⟨⟨50, 50, 150, 150⟩, 10000, 900, ShapeType.rectangle⟩

/-- Raw shape D of the merge fixture: disjoint from A and from B and
center-far from both, but contained in the union bounding region of A
and B. -/
def shapeD : RawShape := ⟨⟨0, 100, 50, 150⟩, 2500, 900, ShapeType.circle⟩

/-- The merge fixture input. -/
def demoShapes : List RawShape := [shapeA, shapeB, shapeD]

/-- A graph with a start node feeding a decision node whose two exits
are labeled No and Yes, in that unsorted edge order. -/
def gDec : Graph :=
  ⟨[⟨0, SemClass.start, "Begin"⟩, ⟨1, SemClass.decision, "Check"⟩,
    ⟨2, SemClass.process, "Ship"⟩, ⟨3, SemClass.process, "Hold"⟩],
   [⟨0, 1, none⟩, ⟨1, 3, some "No"⟩, ⟨1, 2, some "Yes"⟩]⟩

/-- A graph without any start node. -/
def gNoStart : Graph :=
  ⟨[⟨0, SemClass.process, "Work"⟩, ⟨1, SemClass.stop, "Finish"⟩], [⟨0, 1, none⟩]⟩

/-! ### Helper lemmas about the merger -/

/-- Folding raw shapes into a node never lowers its confidence, because
the merged confidence is the maximum of the contributors. -/
theorem foldl_absorb_conf (l : List RawShape) (m : LNode) :
    m.conf ≤ (l.foldl absorb m).conf := by
  induction l generalizing m with
  | nil => exact le_refl _
  | cons s t ih => exact le_trans (le_max_left m.conf s.conf) (ih (absorb m s))

/-- Every collapsed node draws its confidence bound from some member
shape of the list it was built over. -/
theorem collapse_mem_conf (l : List RawShape) (g : List Nat) (n : LNode)
    (h : collapse l g = some n) : ∃ s, s ∈ l ∧ s.conf ≤ n.conf := by
  unfold collapse at h
  cases hm : g.filterMap (fun i => l.get? i) with
  | nil => rw [hm] at h; cases h
  | cons s rest =>
    rw [hm] at h
    refine ⟨s, ?_, ?_⟩
    · have hs : s ∈ g.filterMap (fun i => l.get? i) := by
        rw [hm]; exact List.mem_cons_self s rest
      obtain ⟨i, _, hget⟩ := List.mem_filterMap.mp hs
      exact List.get?_mem hget
    · calc s.conf = (⟨s.box, s.conf, s.ty, s.area⟩ : LNode).conf := rfl
        _ ≤ (rest.foldl absorb ⟨s.box, s.conf, s.ty, s.area⟩).conf := foldl_absorb_conf rest _
        _ = n.conf := by rw [Option.some.inj h]

/-- Pulling a connected group out of a list shortens it by one. -/
theorem pullMergeable_length (cfg : MergeConfig) (l : List RawShape) (g : List Nat) :
    ∀ (t : List (List Nat)) (p : List Nat × List (List Nat)),
      pullMergeable cfg l g t = some p → p.2.length + 1 = t.length := by
  intro t
  induction t with
  | nil => intro p h; simp [pullMergeable] at h
  | cons h1 t1 ih =>
    intro p hp
    unfold pullMergeable at hp
    by_cases hm : grpMergeable cfg l g h1
    · rw [if_pos hm] at hp
      cases hp
      rfl
    · rw [if_neg hm] at hp
      cases hrec : pullMergeable cfg l g t1 with
      | none => rw [hrec] at hp; cases hp
      | some q =>
        obtain ⟨q1, q2⟩ := q
        rw [hrec] at hp
        cases hp
        have h2 := ih (q1, q2) hrec
        simp only [List.length_cons] at h2 ⊢
        omega

/-- One successful coalescing step removes exactly one group. -/
theorem coalesceStep_length (cfg : MergeConfig) (l : List RawShape) :
    ∀ (gs gs2 : List (List Nat)), coalesceStep cfg l gs = some gs2 →
      gs2.length + 1 = gs.length := by
  intro gs
  induction gs with
  | nil => intro gs2 h; simp [coalesceStep] at h
  | cons g rest ih =>
    intro gs2 h
    unfold coalesceStep at h
    cases hpull : pullMergeable cfg l g rest with
    | some p =>
      obtain ⟨g2, r2⟩ := p
      rw [hpull] at h
      cases h
      have hl := pullMergeable_length cfg l g rest (g2, r2) hpull
      simp only [List.length_cons] at hl ⊢
      omega
    | none =>
      rw [hpull] at h
      cases hrec : coalesceStep cfg l rest with
      | none => rw [hrec] at h; cases h
      | some gs3 =>
        rw [hrec] at h
        cases h
        have hl := ih gs3 hrec
        simp only [List.length_cons]
        omega

/-- Coalescing never increases the number of groups. -/
theorem coalesce_length_le (cfg : MergeConfig) (l : List RawShape) :
    ∀ (f : Nat) (gs : List (List Nat)), (coalesce cfg l f gs).length ≤ gs.length := by
  intro f
  induction f with
  | zero => intro gs; exact le_refl _
  | succ f ih =>
    intro gs
    unfold coalesce
    cases hstep : coalesceStep cfg l gs with
    | none => exact le_refl _
    | some gs2 =>
      have hlen := coalesceStep_length cfg l gs gs2 hstep
      exact le_trans (ih gs2) (by omega)

/-- The detector emits at most as many logical nodes as it was fed raw
shapes: guard and flush only drop, and merging only fuses. -/
theorem detect_length_le (cfg : MergeConfig) (shapes : List RawShape) :
    (detect cfg shapes).length ≤ shapes.length := by
  simp only [detect]
  refine le_trans (List.length_filter_le _ _) ?_
  refine le_trans (List.length_filterMap_le _ _) ?_
  refine le_trans (coalesce_length_le _ _ _ _) ?_
  simp only [initGroups, List.length_map, List.length_range]
  exact List.length_filter_le _ _

/-! ### Helper lemmas about narrative line shapes -/

/-- The first character of a branch continuation line is the marker. -/
theorem branchLine_head (e : GEdge) : (branchLine e).data.head? = some '↳' := by
  cases e with
  | mk s t l =>
    cases l with
    | none =>
      unfold branchLine
      rw [String.data_append, String.data_append, String.data_append]
      rfl
    | some lab =>
      unfold branchLine
      rw [String.data_append, String.data_append, String.data_append]
      rfl

/-- Every branch continuation line contains the branch marker. -/
theorem branchLine_contains (e : GEdge) : jsIncludes (branchLine e) '↳' = true := by
  cases e with
  | mk s t l =>
    cases l with
    | none =>
      unfold jsIncludes branchLine
      rw [String.data_append, String.data_append, String.data_append]
      rw [show ("↳ ").data = ['↳', ' '] from rfl]
      simp [List.contains_cons]
    | some lab =>
      unfold jsIncludes branchLine
      rw [String.data_append, String.data_append, String.data_append]
      rw [show ("↳ ").data = ['↳', ' '] from rfl]
      simp [List.contains_cons]

/-- GraphView classifies every branch continuation line with the
indent-branch class. -/
theorem branchLine_indent (e : GEdge) : (renderStep (branchLine e)).cls = "indent-branch" := by
  simp [renderStep, branchLine_contains e]

/-- Every linear step line begins with the word Step. -/
theorem stepLine_head (k : Nat) (nd : GNode) : (stepLine k nd).data.head? = some 'S' := by
  unfold stepLine
  rw [String.data_append, String.data_append, String.data_append]
  rfl

/-! ### Claim theorems -/

/-- C1: every logical node output by the detector pipeline has
confidence at least the configured guard threshold and bounding area at
least the configured noise threshold, for every input sequence and every
configuration; nodes violating either bound never leave the stage. -/
theorem claim1_pipeline_thresholds (cfg : MergeConfig) (shapes : List RawShape) (n : LNode)
    (h : n ∈ detect cfg shapes) :
    cfg.guard ≤ n.conf ∧ cfg.noise ≤ n.box.area := by
  simp only [detect] at h
  obtain ⟨hmem, hq⟩ := List.mem_filter.mp h
  refine ⟨?_, of_decide_eq_true hq⟩
  obtain ⟨g, _, hcol⟩ := List.mem_filterMap.mp hmem
  obtain ⟨s, hsmem, hconf⟩ := collapse_mem_conf _ _ _ hcol
  have hkept := (List.mem_filter.mp hsmem).2
  exact le_trans (of_decide_eq_true hkept) hconf

/-- C1 witness: the node detected from the confident square fixture
meets both default thresholds. -/
theorem claim1_witness :
    defaultConfig.guard ≤ (900 : Int) ∧ defaultConfig.noise ≤ (10000 : Int) := by
  have h := claim1_pipeline_thresholds defaultConfig [shapeA]
    ⟨⟨0, 0, 100, 100⟩, 900, ShapeType.rectangle, 10000⟩ (by decide)
  exact ⟨h.1, h.2⟩

/-- C3: the outgoing edges of a decision node are enumerated in a stable
sort by polarity priority (Yes and True before No and False before
unlabeled), every branch line is an indented continuation carrying the
branch marker rather than a top-level Step line, and the fixture with
two exits labeled No and Yes yields exactly one linear step followed by
the Yes branch line and then the No branch line. -/
theorem claim3_decision_branches :
    (∀ es : List GEdge, List.Sorted polLE (sortBranches es) ∧ List.Perm (sortBranches es) es)
    ∧ (∀ e : GEdge, (branchLine e).data.head? = some '↳' ∧
        (renderStep (branchLine e)).cls = "indent-branch")
    ∧ (∀ (k : Nat) (nd : GNode), (stepLine k nd).data.head? = some 'S')
    ∧ (polKey (some "Yes") = 0 ∧ polKey (some "True") = 0 ∧ polKey (some "No") = 1 ∧
        polKey (some "False") = 1 ∧ polKey none = 2)
    ∧ narrative gDec = ["Step 1: Begin", "Step 2: Check", "↳ Yes: continue to node 2",
        "↳ No: continue to node 3", "Step 3: Ship", "Step 4: Hold"] :=
  ⟨fun es => ⟨List.sorted_insertionSort polLE es, List.perm_insertionSort polLE es⟩,
   fun e => ⟨branchLine_head e, branchLine_indent e⟩,
   fun k nd => stepLine_head k nd,
   by decide, by decide⟩

/-- C5 amended: re-running the merge step on its own output never
increases the node count; it is not idempotent, since union bounding
regions of merged nodes can newly overlap and fuse further. -/
theorem claim5_amended (cfg : MergeConfig) (shapes : List RawShape) :
    (detect cfg (List.map toShape (detect cfg shapes))).length ≤
      (detect cfg shapes).length := by
  refine le_trans (detect_length_le cfg _) ?_
  exact le_of_eq (List.length_map _ _)

/-- C5 counterexample: on the fixture of three shapes the detector
output has two nodes, yet running the merge step again on that very
output fuses them into one, so the claimed idempotence fails. -/
theorem claim5_counterexample :
    detect defaultConfig (List.map toShape (detect defaultConfig demoShapes)) ≠
      detect defaultConfig demoShapes
    ∧ (detect defaultConfig (List.map toShape (detect defaultConfig demoShapes))).length <
        (detect defaultConfig demoShapes).length :=
  ⟨by decide, by decide⟩

/-- C2: a graph with zero nodes classified start yields an empty
narrative as a valid terminal result, and the steps view of GraphView
shows the no-logic message exactly when the narrative sequence is empty. -/
theorem claim2_empty_narrative :
    (∀ g : Graph, g.nodes.filter (fun nd => decide (nd.cls = SemClass.start)) = [] →
      narrative g = [])
    ∧ (∀ ns : List String, renderSteps ns = StepsView.message noLogicMsg ↔ ns.length = 0)
    ∧ noLogicMsg = "No logic could be interpreted from this graph." := by
  refine ⟨?_, ?_, rfl⟩
  · intro g h
    simp [narrative, startIds, h]
  · intro ns
    cases ns with
    | nil => simp [renderSteps]
    | cons a t => simp [renderSteps]

/-- C2 witness: the start-free fixture yields an empty narrative, and
rendering the empty narrative shows the no-logic message. -/
theorem claim2_witness :
    narrative gNoStart = [] ∧ renderSteps [] = StepsView.message noLogicMsg :=
  ⟨claim2_empty_narrative.1 gNoStart (by decide),
   (claim2_empty_narrative.2.1 []).mpr rfl⟩

/-- C7: GraphView renders the sanity warnings section exactly when
sanity_violations is a nonempty list, the rendered items are that very
list (each violation once, in order), and the warnings sit beside the
steps content rather than replacing it. -/
theorem claim7_sanity_visible (m : MetaData) (ns : List String) :
    (∀ vs, renderSanity m = some vs ↔ m.sanity_violations = some vs ∧ vs ≠ [])
    ∧ renderView ns m = (renderSteps ns, renderSanity m) := by
  refine ⟨?_, rfl⟩
  intro vs
  cases hsv : m.sanity_violations with
  | none => simp [renderSanity, hsv]
  | some l =>
    cases l with
    | nil => simp [renderSanity, hsv]
    | cons a t =>
      simp [renderSanity, hsv]
      intro h
      subst h
      simp

/-- C7 witness: a metadata record with one violation renders exactly
that violation list. -/
theorem claim7_witness :
    renderSanity ⟨3, 2, "directed-acyclic", some ["Decision node D1 has fewer than 2 outgoing edges"]⟩ =
      some ["Decision node D1 has fewer than 2 outgoing edges"] :=
  ((claim7_sanity_visible _ []).1 _).mpr ⟨rfl, by decide⟩

/-- C8: GraphView classifies a narrative step with the indent-branch
class exactly when it contains the branch marker character, gives it the
text before the first colon as its marker when it starts with Step, and
the bullet marker otherwise. -/
theorem claim8_step_classification (step : String) :
    ((renderStep step).cls = "indent-branch" ↔ jsIncludes step '↳' = true)
    ∧ (jsStarts step "Step" = true → (renderStep step).marker = (jsSplit step ':').headD "")
    ∧ (jsStarts step "Step" = false → (renderStep step).marker = "•") := by
  refine ⟨?_, ?_, ?_⟩
  · cases h : jsIncludes step '↳' with
    | true => simp [renderStep, h]
    | false =>
      simp [renderStep, h]
  · intro h
    simp [renderStep, h]
  · intro h
    simp [renderStep, h]

/-- C8 witness: a linear step gets its Step marker, a plain step gets
the bullet, and a branch continuation gets the indent class. -/
theorem claim8_witness :
    (renderStep "Step 1: Begin").marker = (jsSplit "Step 1: Begin" ':').headD ""
    ∧ (renderStep "note").marker = "•"
    ∧ (renderStep "↳ Yes: continue").cls = "indent-branch" :=
  ⟨(claim8_step_classification "Step 1: Begin").2.1 (by decide),
   (claim8_step_classification "note").2.2 (by decide),
   (claim8_step_classification "↳ Yes: continue").1.mpr (by decide)⟩

/-- C9: healthCheck is total with a boolean result: it returns true
exactly when the fetch resolved with an ok response, and false on every
network failure. -/
theorem claim9_healthcheck_total (o : FetchOutcome HealthResponse) :
    (healthCheck o = true ↔ ∃ r, o = FetchOutcome.got r ∧ r.ok = true)
    ∧ ∀ m, healthCheck (FetchOutcome.netFail m) = false := by
  refine ⟨?_, fun m => rfl⟩
  cases o with
  | got r =>
    constructor
    · intro h
      exact ⟨r, rfl, h⟩
    · rintro ⟨r2, heq, h⟩
      cases heq
      exact h
  | netFail m =>
    constructor
    · intro h
      simp [healthCheck] at h
    · rintro ⟨r2, heq, h⟩
      cases heq

/-- C9 witness: an ok health response makes healthCheck return true. -/
theorem claim9_witness : healthCheck (FetchOutcome.got ⟨true⟩) = true :=
  (claim9_healthcheck_total (FetchOutcome.got ⟨true⟩)).1.mpr ⟨⟨true⟩, rfl, rfl⟩

/-- C10: handleUpload invokes the success callback exactly when a file
is selected, the api call returns, and result.success is true, passing
result.data; every failing outcome invokes no callback (leaving the
displayed result unchanged), and the loading flag ends false in every
outcome reachable from a non-loading state. -/
theorem claim10_upload_atomic {δ : Type} (file : Option String)
    (call : Except String (AnalyzeResult δ)) (st : UploadState)
    (h : st.loading = false) :
    ((∃ d, (handleUpload file call st).2 = some d) ↔
      file ≠ none ∧ ∃ res, call = Except.ok res ∧ res.success = true)
    ∧ (∀ f res, file = some f → call = Except.ok res → res.success = true →
        (handleUpload file call st).2 = some res.data)
    ∧ (handleUpload file call st).1.loading = false := by
  cases file with
  | none =>
    refine ⟨?_, ?_, ?_⟩
    · simp [handleUpload]
    · intro f res hf
      exact absurd hf (by simp)
    · simpa [handleUpload] using h
  | some f0 =>
    cases call with
    | ok res =>
      cases hs : res.success with
      | true =>
        refine ⟨?_, ?_, ?_⟩
        · simp [handleUpload, hs]
        · intro f res2 hf hc hsucc
          cases hc
          simp [handleUpload, hs]
        · simp [handleUpload, hs]
      | false =>
        refine ⟨?_, ?_, ?_⟩
        · simp [handleUpload, hs]
        · intro f res2 hf hc hsucc
          cases hc
          rw [hs] at hsucc
          exact absurd hsucc (by decide)
        · simp [handleUpload, hs]
    | error e =>
      refine ⟨?_, ?_, ?_⟩
      · simp [handleUpload]
      · intro f res2 hf hc
        cases hc
      · simp [handleUpload]

/-- C4: node_reduction_pct is the clamped percentage formula, always in
the interval from 0 to 100, and 0 when the raw count is 0 or when no
shape was filtered or merged away. -/
theorem claim4_reduction_pct (raw fin : Nat) :
    0 ≤ node_reduction_pct raw fin
    ∧ node_reduction_pct raw fin ≤ 100
    ∧ (raw = 0 → node_reduction_pct raw fin = 0)
    ∧ (fin = raw → node_reduction_pct raw fin = 0)
    ∧ (raw ≠ 0 → node_reduction_pct raw fin =
        max 0 (min 100 (((raw : ℚ) - (fin : ℚ)) / (raw : ℚ) * 100))) := by
  by_cases hr : raw = 0
  · refine ⟨?_, ?_, fun _ => ?_, fun _ => ?_, fun hne => absurd hr hne⟩ <;>
      simp [node_reduction_pct, hr]
  · refine ⟨?_, ?_, fun h0 => absurd h0 hr, ?_, fun _ => ?_⟩
    · simp only [node_reduction_pct, if_neg hr]
      exact le_max_left 0 _
    · simp only [node_reduction_pct, if_neg hr]
      exact max_le (by norm_num) (min_le_left 100 _)
    · intro hfr
      simp [node_reduction_pct, if_neg hr, hfr]
    · simp [node_reduction_pct, if_neg hr]

/-- C4 witness: the metric at concrete counts: zero raw shapes give 0,
an unreduced count gives 0, and a reduced count stays at least 0. -/
theorem claim4_witness :
    node_reduction_pct 0 3 = 0 ∧ node_reduction_pct 4 4 = 0 ∧ 0 ≤ node_reduction_pct 4 1 :=
  ⟨(claim4_reduction_pct 0 3).2.2.1 rfl, (claim4_reduction_pct 4 4).2.2.2.1 rfl,
   (claim4_reduction_pct 4 1).1⟩

/-- C6: given a received analyze response, analyzeDiagram throws an
error whose message includes the text Analysis failed plus the status
text exactly when the response is not ok; an ok response returns the
parsed JSON body, and a failed analysis is never returned as a success
value. -/
theorem claim6_analyze_errors {δ : Type} (r : AnalyzeResponse δ) :
    ((∃ e, analyzeDiagram (FetchOutcome.got r) = Except.error e ∧
        "Analysis failed:".data <:+: e.data ∧ r.statusText.data <:+: e.data) ↔ r.ok = false)
    ∧ (∀ j, r.ok = true → r.body = some j → analyzeDiagram (FetchOutcome.got r) = Except.ok j)
    ∧ (r.ok = false → ∀ j, analyzeDiagram (FetchOutcome.got r) ≠ Except.ok j) := by
  cases hok : r.ok with
  | false =>
    refine ⟨⟨fun _ => rfl, fun _ => ?_⟩, ?_, ?_⟩
    · refine ⟨"Analysis failed: " ++ r.statusText, by simp [analyzeDiagram, hok], ?_, ?_⟩
      · refine List.IsPrefix.isInfix ⟨' ' :: r.statusText.data, ?_⟩
        rw [String.data_append]
        rw [show ("Analysis failed: ").data = ("Analysis failed:").data ++ [' '] from rfl]
        simp
      · exact List.IsSuffix.isInfix ⟨"Analysis failed: ".data, (String.data_append _ _).symm⟩
    · intro j hj
      exact absurd hj (by decide)
    · intro _ j
      simp [analyzeDiagram, hok]
  | true =>
    refine ⟨⟨?_, fun hf => absurd hf (by decide)⟩, ?_, fun hf => absurd hf (by decide)⟩
    · rintro ⟨e, he, hinf, _⟩
      cases hb : r.body with
      | some j =>
        rw [show analyzeDiagram (FetchOutcome.got r) = Except.ok j by
          simp [analyzeDiagram, hok, hb]] at he
        exact absurd he (by simp)
      | none =>
        rw [show analyzeDiagram (FetchOutcome.got r) = Except.error jsonParseErrorMsg by
          simp [analyzeDiagram, hok, hb]] at he
        cases he
        exact absurd hinf (by decide)
    · intro j _ hb
      simp [analyzeDiagram, hok, hb]

/-- C6 witness: a 500 response produces the descriptive error, and an ok
response with a parsed body is returned as a success. -/
theorem claim6_witness :
    (∃ e, analyzeDiagram (FetchOutcome.got (⟨false, "Internal Server Error", none⟩ : AnalyzeResponse Nat)) =
        Except.error e ∧ "Analysis failed:".data <:+: e.data ∧
        ("Internal Server Error").data <:+: e.data)
    ∧ analyzeDiagram (FetchOutcome.got (⟨true, "OK", some ⟨true, none, (5 : Nat)⟩⟩ : AnalyzeResponse Nat)) =
        Except.ok ⟨true, none, 5⟩ :=
  ⟨(claim6_analyze_errors ⟨false, "Internal Server Error", none⟩).1.mpr rfl,
   (claim6_analyze_errors ⟨true, "OK", some ⟨true, none, (5 : Nat)⟩⟩).2.1 ⟨true, none, 5⟩ rfl rfl⟩

/-- C10 witness: a successful analysis of a selected file hands the
payload to the callback and resets loading. -/
theorem claim10_witness :
    (handleUpload (some "diagram.png") (Except.ok ⟨true, none, (7 : Nat)⟩) ⟨false, ""⟩).2 = some 7
    ∧ (handleUpload (some "diagram.png") (Except.ok ⟨true, none, (7 : Nat)⟩) ⟨false, ""⟩).1.loading = false :=
  ⟨(claim10_upload_atomic (some "diagram.png") (Except.ok ⟨true, none, (7 : Nat)⟩) ⟨false, ""⟩ rfl).2.1
      "diagram.png" ⟨true, none, (7 : Nat)⟩ rfl rfl rfl,
   (claim10_upload_atomic (some "diagram.png") (Except.ok ⟨true, none, (7 : Nat)⟩) ⟨false, ""⟩ rfl).2.2⟩

end S2P
